import Mathlib

/-!
Shallow embedding of the easyply preprocessor (`easyply/__init__.py`) and the
parts of its rule model that the library delegates to its `nodes`/`parser`
modules.  Pure functions of the Python source are translated into Lean
functions; the thread-local `_LOCATION_MAP` becomes an explicit state value
threaded through the adapter; Python exceptions become `Except PyErr`.
-/

namespace EasyPly

/-- Python exceptions raised by the embedded code.  `userError` stands for an
arbitrary exception raised inside a user-supplied handler function. -/
inductive PyErr
  | noDocstring (msg : String)
  | singleRuleExpected
  | notInEasyPlyRule (msg : String)
  | keyError (msg : String)
  | nameError (missing : String)
  | typeError (msg : String)
  | userError (msg : String)
deriving DecidableEq, Repr

/-- A flattened grammar term: a bare symbol, or a symbol carrying a binding
name (`{SYM}` / `{SYM:name}` in the DSL).  Modelled from the spec: the Term
Model lives in `nodes.py`, which is not under src/; §2–§3 of the design
describe Plain Terms and Named Terms (symbol plus binding name). -/
inductive FlatTerm
  | plain (symbol : String)
  | named (symbol : String) (name : String)
deriving DecidableEq, Repr

/-- An unflattened term: additionally an Optional Group, an ordered sequence
of non-group terms plus a presence flag.  Modelled from the spec, §3:
"an ordered sequence of Terms (which may themselves include Named Terms, but
not nested Optional Groups ...) plus a presence flag used only during
expansion". -/
inductive Term
  | plain (symbol : String)
  | named (symbol : String) (name : String)
  | optionalGroup (terms : List FlatTerm) (present : Bool)
deriving DecidableEq, Repr

/-- A rule as produced by the DSL parser: production name plus ordered terms,
possibly containing Optional Groups.  Modelled from the spec, §3. -/
structure Rule where
  name : String
  terms : List Term
deriving DecidableEq, Repr

/-- A flattened rule: only Plain/Named Terms, in final position order.
Modelled from the spec, §3. -/
structure FlatRule where
  name : String
  terms : List FlatTerm
deriving DecidableEq, Repr

/-- Modelled from the spec, §4.4 (`nodes.py` is not under src/): flattening a
term splices the terms of a present Optional Group at its position and omits
an absent group entirely; plain and named terms pass through. -/
def Term.flatten : Term → List FlatTerm
  | .plain s => [.plain s]
  | .named s n => [.named s n]
  | .optionalGroup ts present => if present then ts else []

/-- Modelled from the spec, §4.4: `Rule.flatten` resolves every term,
preserving left-to-right order, yielding a `FlatRule`. -/
def Rule.flatten (r : Rule) : FlatRule :=
  ⟨r.name, r.terms.flatMap Term.flatten⟩

/-- Modelled from the spec, §4.3: during expansion every Optional Group takes
both presence assignments; other terms are left alone. -/
def Term.assignments : Term → List Term
  | .optionalGroup ts _ => [.optionalGroup ts true, .optionalGroup ts false]
  | t => [t]

/-- Modelled from the spec, §4.3: enumerate every present/absent assignment
over the optional groups of a term sequence (the power set of group indices). -/
def expandTerms : List Term → List (List Term)
  | [] => [[]]
  | t :: ts => (Term.assignments t).flatMap fun c => (expandTerms ts).map (c :: ·)

/-- Modelled from the spec, §4.3 (`nodes.py` is not under src/):
`Rule.expand_optionals` produces one rule variant per present/absent
assignment over the rule's Optional Groups. -/
def Rule.expand_optionals (r : Rule) : List Rule :=
  (expandTerms r.terms).map fun ts => ⟨r.name, ts⟩

/-- Recognizer for Optional Groups, used to count a rule's groups. -/
def isOptionalGroup : Term → Bool
  | .optionalGroup _ _ => true
  | _ => false

/-- Number of Optional Groups of a rule (the *k* of §4.3). -/
def Rule.countOptionalGroups (r : Rule) : Nat :=
  r.terms.countP isOptionalGroup

/-- An input element of the ruleset coercion: a `Rule` object or a DSL
string (`isinstance(rule, str)` dispatch in `coerce_to_rule`). -/
inductive RuleInput
  | rule (r : Rule)
  | str (s : String)
deriving DecidableEq, Repr

/-- The argument shape accepted by `_coerce_to_ruleset`: a bare (non-list)
value, or a list/tuple of elements (`isinstance(ruleset, (list, tuple))`). -/
inductive RulesetInput
  | single (x : RuleInput)
  | list (xs : List RuleInput)
deriving DecidableEq, Repr

/-- `coerce_to_rule` (inner function of `_coerce_to_ruleset`): a string is
parsed by `parser.parse` (passed in as `parse`; `parser.py` is not under
src/), anything else is wrapped into a one-element tuple. -/
def coerce_to_rule (parse : String → List Rule) : RuleInput → List Rule
  | .str s => parse s
  | .rule r => [r]

/-- `_coerce_to_ruleset`: a non-list argument is first wrapped into a
singleton tuple; then every element goes through `coerce_to_rule` and the
results are concatenated (`chain.from_iterable`). -/
def _coerce_to_ruleset (parse : String → List Rule) : RulesetInput → List Rule
  | .single x => (([x].map (coerce_to_rule parse))).flatten
  | .list xs => ((xs.map (coerce_to_rule parse))).flatten

/-- `_coerce_to_single_rule`: coerce to a ruleset, raise
`SingleRuleExpectedError` unless its length is 1, else return its element. -/
def _coerce_to_single_rule (parse : String → List Rule) (input : RulesetInput) :
    Except PyErr Rule :=
  match _coerce_to_ruleset parse input with
  | [r] => .ok r
  | _ => .error .singleRuleExpected

/-- Python `dict` assignment `d[k] = v` over an insertion-ordered association
list: an existing key keeps its position and gets the new value, a fresh key
is appended. -/
def dictInsert {β : Type} (d : List (String × β)) (k : String) (v : β) :
    List (String × β) :=
  if d.any (fun kv => kv.1 = k) then
    d.map (fun kv => if kv.1 = k then (k, v) else kv)
  else
    d ++ [(k, v)]

/-- Python `k in d` on a dict with string keys. -/
def dictContains {β : Type} (d : List (String × β)) (k : String) : Bool :=
  d.any (fun kv => kv.1 = k)

/-- Python `d[k]` lookup (first — and, given `dictInsert`, only — entry). -/
def dictGet {β : Type} (d : List (String × β)) (k : String) : Option β :=
  (d.find? (fun kv => kv.1 = k)).map (·.2)

/-- The ply reduction object `p` handed to an adapter: position-indexed
values (position 0 is the writable result slot) and the per-position
`lineno`/`lexpos`/`linespan`/`lexspan` accessors.  `V` is the type of the
grammar-symbol values. -/
structure Production (V : Type) where
  values : Nat → V
  lineno : Nat → Int
  lexpos : Nat → Int
  linespan : Nat → Int × Int
  lexspan : Nat → Int × Int

/-- The thread-local `_LOCATION_MAP`: its two attributes `production` and
`terms`, each possibly unset (`hasattr` is `Option.isSome`). -/
structure LocationMap (V : Type) where
  production : Option (Production V)
  terms : Option (List (String × Nat))

/-- What a user-supplied `extra_fn` may return: a Mapping (dict-like) or any
non-mapping Python value. -/
inductive ExtraResult
  | mapping (entries : List (String × Int))
  | nonMapping (descr : String)
deriving DecidableEq, Repr

/-- The four-field location-data dictionary built by `location`.  (The
`rv.update(up)` merge on the `extra_fn` path is dead code in the source —
see `location` below — so the result always has exactly these fields.) -/
structure LocData where
  lineno : Int
  lexpos : Int
  linespan : Int × Int
  lexspan : Int × Int
deriving DecidableEq, Repr

/-- Python `term_name in _LOCATION_MAP.terms` where `term_name` may be
`None`: `None` compares unequal to every string key, so the `none` case is
`false`. -/
def optKeyInDict (termName : Option String) (d : List (String × Nat)) : Bool :=
  match termName with
  | none => false
  | some n => dictContains d n

/-- The `%s` rendering of the `term_name` argument in the KeyError message. -/
def showTermName : Option String → String
  | none => "None"
  | some n => n

/-- `location(term_name=None, extra_fn=None)`, with the thread-local state
passed explicitly.  Line-by-line from the source:
* raises `NotInEasyPlyRuleError` unless both `_LOCATION_MAP.production` and
  `_LOCATION_MAP.terms` are set;
* raises `KeyError` when `term_name not in _LOCATION_MAP.terms` (note: this
  check precedes the `term_name is None` branch, so `None` — never a dict
  key — always takes the KeyError path and the `i = 0` branch is dead);
* builds the four-field dictionary from the production's accessors;
* on the `extra_fn` path the source (line 134) tests
  `if not instance(up, Mapping)` — `instance` is an undefined global, so
  evaluating the condition raises `NameError` regardless of what `extra_fn`
  returned, and the `TypeError`/`rv.update(up)` lines are unreachable. -/
def location {V : Type} (st : LocationMap V) (termName : Option String)
    (extraFn : Option (V → ExtraResult)) : Except PyErr LocData :=
  match st.production, st.terms with
  | some p, some terms =>
    if ¬ optKeyInDict termName terms then
      .error (.keyError ("Provided " ++ showTermName termName ++
        " is not a named term"))
    else
      let i : Nat :=
        match termName with
        | none => 0
        | some n => (dictGet terms n).getD 0
      let rv : LocData :=
        ⟨p.lineno i, p.lexpos i, p.linespan i, p.lexspan i⟩
      match extraFn with
      | none => .ok rv
      | some f =>
        let _up := f (p.values i)
        .error (.nameError "instance")
  | _, _ =>
    .error (.notInEasyPlyRule
      "location is only a valid call in a easyply production ")

/-- The `for i, term in enumerate(rule.terms)` loop of the wrapper: builds
`kwargs` (binding name → `p[i+1]` value) and `term_map` (binding name →
`i+1`) by dict assignment; `i` is the zero-based loop index. -/
def buildMapsGo {V : Type} (p : Production V) :
    Nat → List FlatTerm → List (String × V) × List (String × Nat) →
    List (String × V) × List (String × Nat)
  | _, [], acc => acc
  | i, .named _ n :: ts, acc =>
    buildMapsGo p (i + 1) ts
      (dictInsert acc.1 n (p.values (i + 1)), dictInsert acc.2 n (i + 1))
  | i, .plain _ :: ts, acc => buildMapsGo p (i + 1) ts acc

/-- `kwargs` and `term_map` as computed by the wrapper for a flattened term
sequence, starting from empty dicts. -/
def buildMaps {V : Type} (ts : List FlatTerm) (p : Production V) :
    List (String × V) × List (String × Nat) :=
  buildMapsGo p 0 ts ([], [])

/-- The result of one adapter invocation: the Python outcome (`.ok retval`
for a normal return — `retval = none` is Python `None` — or `.error` for a
propagated exception), the reduction object after the call (position 0
possibly written), and the thread-local `_LOCATION_MAP` after the call. -/
def wrapper {V : Type} (rule : FlatRule)
    (fn : List (String × V) → Except PyErr V)
    (p : Production V) (st : LocationMap V) :
    Except PyErr (Option V) × Production V × LocationMap V :=
  let maps := buildMaps rule.terms p
  let kwargs := maps.1
  let term_map := maps.2
  -- _LOCATION_MAP.production = p ; _LOCATION_MAP.terms = term_map
  -- (unconditional attribute assignment, the incoming state is overwritten)
  let st1 : LocationMap V := ⟨some p, some term_map⟩
  match fn kwargs with
  | .ok v =>
    -- p[0] = fn(**kwargs), then del of both attributes; falling off the end
    -- of the Python function returns None
    (.ok none,
     { p with values := fun j => if j = 0 then v else p.values j },
     ⟨none, none⟩)
  | .error e =>
    -- fn raised: the two `del` statements are never reached (no try/finally),
    -- so the exception propagates with st1 still in place and p unwritten
    (.error e, p, st1)

/-- `create_wrapper` up to the `@wraps` closure: coerces its rule argument to
a single rule and flattens it.  The returned adapter's behavior is `wrapper`
applied to this flattened rule (the closure captures nothing else). -/
def create_wrapper (parse : String → List Rule) (input : RulesetInput) :
    Except PyErr FlatRule :=
  match _coerce_to_single_rule parse input with
  | .ok r => .ok r.flatten
  | .error e => .error e

/-- `process_rule` inside `expand_optionals` on the `format=False` path:
`list(set(rule.flatten() for rule in rule.expand_optionals()))`.  The Python
`set` collapses duplicates; `List.dedup` models it as a deterministic
duplicate-collapsing pass.  (The `format=True` branch renders each member to
a string instead; no claim depends on it.) -/
def process_rule (r : Rule) : List FlatRule :=
  ((r.expand_optionals).map Rule.flatten).dedup

/-- `expand_optionals` (module-level, `format=False` path): coerce the
argument to a ruleset and concatenate the per-rule expansions. -/
def expand_optionals (parse : String → List Rule) (input : RulesetInput) :
    List FlatRule :=
  (((_coerce_to_ruleset parse input).map process_rule)).flatten

/-- The binding names of the Named Terms of a flattened term sequence, in
order. -/
def namedNames (ts : List FlatTerm) : List String :=
  ts.filterMap fun t =>
    match t with
    | .named _ n => some n
    | .plain _ => none

/-- Spec-side characterization of the keyword arguments (§4.5 step 1, claim
wording): one entry per Named Term, binding the term's name to the value at
position `i + 1` where `i` is the term's zero-based index. -/
def kwargsSpecGo {V : Type} (p : Production V) :
    Nat → List FlatTerm → List (String × V)
  | _, [] => []
  | i, .named _ n :: ts => (n, p.values (i + 1)) :: kwargsSpecGo p (i + 1) ts
  | i, .plain _ :: ts => kwargsSpecGo p (i + 1) ts

/-- Spec-side keyword-argument list for a whole flattened term sequence. -/
def kwargsSpec {V : Type} (ts : List FlatTerm) (p : Production V) :
    List (String × V) :=
  kwargsSpecGo p 0 ts

/-- Spec-side characterization of the ruleset coercion on a list input:
each string element is parsed into its resulting rules, each non-string
element is passed through unchanged, and the outputs are concatenated in
input order. -/
def rulesetSpec (parse : String → List Rule) : List RuleInput → List Rule
  | [] => []
  | .str s :: rest => parse s ++ rulesetSpec parse rest
  | .rule r :: rest => r :: rulesetSpec parse rest

/-- The always-unset thread-local state (no adapter invocation ran yet). -/
def LocationMap.empty {V : Type} : LocationMap V := ⟨none, none⟩

/-- A stand-in DSL parser for concrete examples (the coercion and wrapper
behavior under scrutiny never call it on `Rule`-typed inputs). -/
def demoParse : String → List Rule := fun _ => []

/-- The rule parsed from `"production: {A}"`; modelled from the spec, §3 and
§8: one Named Term with symbol `A` and defaulted binding name `a`. -/
def demoRule : Rule := ⟨"production", [.named "A" "a"]⟩

/-- `demoRule` as the rule argument of `create_wrapper`. -/
def demoInput : RulesetInput := .single (.rule demoRule)

/-- The flattened form of `demoRule`. -/
def demoFlatRule : FlatRule := ⟨"production", [.named "A" "a"]⟩

/-- A reduction object where every position holds `"Hello"` at line 1,
offset 0, spans `(1,1)` / `(0,0)` (the §8 example reduction). -/
def demoProd : Production String :=
  ⟨fun _ => "Hello", fun _ => 1, fun _ => 0, fun _ => (1, 1), fun _ => (0, 0)⟩

/-- A user function that returns the value bound to `a`. -/
def demoFnOk : List (String × String) → Except PyErr String :=
  fun kw => .ok ((dictGet kw "a").getD "")

/-- A user function that raises. -/
def demoFnRaise : List (String × String) → Except PyErr String :=
  fun _ => .error (.userError "boom")

/-- An `extra_fn` that returns a well-formed Mapping. -/
def demoExtraFn : String → ExtraResult :=
  fun _ => .mapping [("filename", 0)]

/-- A flattened rule with two Named Terms sharing the binding name `x`. -/
def dupRule : FlatRule := ⟨"production", [.named "A" "x", .named "B" "x"]⟩

/-- A reduction object over `Nat` values where position `i` holds `i`. -/
def dupProd : Production Nat :=
  ⟨fun i => i, fun _ => 1, fun _ => 0, fun _ => (1, 1), fun _ => (0, 0)⟩

/-- A user function over `Nat` values returning the value bound to `x`. -/
def dupFn : List (String × Nat) → Except PyErr Nat :=
  fun kw => .ok ((dictGet kw "x").getD 0)

theorem dictInsert_fresh {β : Type} (d : List (String × β)) (k : String) (v : β)
    (h : dictContains d k = false) : dictInsert d k v = d ++ [(k, v)] := by
  simp only [dictContains] at h
  simp [dictInsert, h]

theorem dictContains_append {β : Type} (d e : List (String × β)) (k : String) :
    dictContains (d ++ e) k = (dictContains d k || dictContains e k) := by
  simp [dictContains, List.any_append]

theorem namedNames_cons_named (s n : String) (ts : List FlatTerm) :
    namedNames (.named s n :: ts) = n :: namedNames ts := rfl

theorem namedNames_cons_plain (s : String) (ts : List FlatTerm) :
    namedNames (.plain s :: ts) = namedNames ts := rfl

theorem kwargsSpecGo_length {V : Type} (p : Production V) (ts : List FlatTerm) :
    ∀ i, (kwargsSpecGo p i ts).length = (namedNames ts).length := by
  induction ts with
  | nil => intro i; rfl
  | cons t ts ih =>
    intro i
    cases t with
    | plain s => simpa [kwargsSpecGo, namedNames_cons_plain] using ih (i + 1)
    | named s n => simpa [kwargsSpecGo, namedNames_cons_named] using ih (i + 1)

theorem buildMapsGo_fst {V : Type} (p : Production V) (ts : List FlatTerm) :
    ∀ (i : Nat) (acc1 : List (String × V)) (acc2 : List (String × Nat)),
      (namedNames ts).Nodup →
      (∀ n, dictContains acc1 n = true → n ∉ namedNames ts) →
      (buildMapsGo p i ts (acc1, acc2)).1 = acc1 ++ kwargsSpecGo p i ts := by
  induction ts with
  | nil => intro i acc1 acc2 _ _; simp [buildMapsGo, kwargsSpecGo]
  | cons t ts ih =>
    intro i acc1 acc2 hnd hacc
    cases t with
    | plain s =>
      rw [namedNames_cons_plain] at hnd hacc
      simpa [buildMapsGo, kwargsSpecGo] using ih (i + 1) acc1 acc2 hnd hacc
    | named s n =>
      rw [namedNames_cons_named] at hnd hacc
      have hnotin : n ∉ namedNames ts := (List.nodup_cons.mp hnd).1
      have hnd' : (namedNames ts).Nodup := (List.nodup_cons.mp hnd).2
      have hfresh : dictContains acc1 n = false := by
        cases hdc : dictContains acc1 n with
        | false => rfl
        | true => exact absurd (List.mem_cons_self n _) (hacc n hdc)
      have step : buildMapsGo p i (FlatTerm.named s n :: ts) (acc1, acc2) =
          buildMapsGo p (i + 1) ts
            (dictInsert acc1 n (p.values (i + 1)), dictInsert acc2 n (i + 1)) := rfl
      rw [step, dictInsert_fresh acc1 n _ hfresh]
      have hacc' : ∀ m,
          dictContains (acc1 ++ [(n, p.values (i + 1))]) m = true →
          m ∉ namedNames ts := by
        intro m hm
        rw [dictContains_append] at hm
        rcases (Bool.or_eq_true _ _).mp hm with hm1 | hm2
        · intro hmem
          exact (hacc m hm1) (List.mem_cons_of_mem _ hmem)
        · have : n = m := by simpa [dictContains] using hm2
          exact this ▸ hnotin
      rw [ih (i + 1) _ (dictInsert acc2 n (i + 1)) hnd' hacc']
      simp [kwargsSpecGo]

theorem buildMaps_fst {V : Type} (ts : List FlatTerm) (p : Production V)
    (h : (namedNames ts).Nodup) : (buildMaps ts p).1 = kwargsSpec ts p := by
  simpa [buildMaps, kwargsSpec] using
    buildMapsGo_fst p ts 0 [] [] h (by intro n hn; simp [dictContains] at hn)

theorem expandTerms_length (ts : List Term) :
    (expandTerms ts).length = 2 ^ (ts.countP isOptionalGroup) := by
  induction ts with
  | nil => simp [expandTerms]
  | cons t ts ih =>
    cases t with
    | plain s =>
      simp [expandTerms, Term.assignments, List.countP_cons, isOptionalGroup, ih]
    | named s n =>
      simp [expandTerms, Term.assignments, List.countP_cons, isOptionalGroup, ih]
    | optionalGroup g pr =>
      simp [expandTerms, Term.assignments, List.countP_cons, isOptionalGroup, ih,
        pow_succ, Nat.mul_two]

theorem expand_optionals_rule_length (r : Rule) :
    (r.expand_optionals).length = 2 ^ r.countOptionalGroups := by
  simp [Rule.expand_optionals, Rule.countOptionalGroups, expandTerms_length]

theorem expand_optionals_rule_name (r : Rule) :
    ∀ v ∈ r.expand_optionals, v.name = r.name := by
  intro v hv
  simp only [Rule.expand_optionals, List.mem_map] at hv
  obtain ⟨ts, _, rfl⟩ := hv
  rfl

theorem flatten_name (r : Rule) : (r.flatten).name = r.name := rfl

theorem process_rule_length_le (r : Rule) :
    (process_rule r).length ≤ 2 ^ r.countOptionalGroups := by
  have h1 : (process_rule r).length ≤
      ((r.expand_optionals).map Rule.flatten).length :=
    (List.dedup_sublist _).length_le
  simpa [List.length_map, expand_optionals_rule_length] using h1

theorem process_rule_length_pos (r : Rule) : 1 ≤ (process_rule r).length := by
  have hlen : 0 < ((r.expand_optionals).map Rule.flatten).length := by
    rw [List.length_map, expand_optionals_rule_length]
    exact pow_pos (by norm_num) _
  obtain ⟨x, hx⟩ := List.exists_mem_of_length_pos hlen
  exact List.length_pos_of_mem (List.mem_dedup.mpr hx)

theorem process_rule_mem (r : Rule) (v : Rule) (hv : v ∈ r.expand_optionals) :
    v.flatten ∈ process_rule r :=
  List.mem_dedup.mpr (List.mem_map_of_mem _ hv)

theorem process_rule_name (r : Rule) :
    ∀ fr ∈ process_rule r, fr.name = r.name := by
  intro fr hfr
  have hmem : fr ∈ (r.expand_optionals).map Rule.flatten := List.mem_dedup.mp hfr
  simp only [List.mem_map] at hmem
  obtain ⟨v, hv, rfl⟩ := hmem
  rw [flatten_name]
  exact expand_optionals_rule_name r v hv

theorem process_rule_pairwise (r : Rule) :
    (process_rule r).Pairwise (fun a b => a.terms ≠ b.terms) := by
  have hnd : (process_rule r).Nodup := List.nodup_dedup _
  refine List.Pairwise.imp_of_mem ?_ hnd
  intro a b ha hb hne hterms
  apply hne
  have hna := process_rule_name r a ha
  have hnb := process_rule_name r b hb
  cases a
  cases b
  simp_all

/-- C1 (refuting the claim as stated): for every wrapper produced by
`create_wrapper`, when the user function raises, the adapter propagates the
error but the Reduction Context is NOT torn down — the two `del` statements
follow the call with no try/finally, so `_LOCATION_MAP.production` and
`_LOCATION_MAP.terms` remain set (and position 0 of `p` is unwritten). -/
theorem wrapper_raise_propagates_and_context_dangles {V : Type}
    (parse : String → List Rule) (input : RulesetInput) (fr : FlatRule)
    (fn : List (String × V) → Except PyErr V) (p : Production V)
    (st : LocationMap V) (e : PyErr)
    (hcw : create_wrapper parse input = .ok fr)
    (hraise : fn (buildMaps fr.terms p).1 = .error e) :
    wrapper fr fn p st =
      (.error e, p, ⟨some p, some (buildMaps fr.terms p).2⟩) := by
  simp [wrapper, hraise]

/-- Witness for C1: the `{A}` wrapper invoked on the §8 example reduction
with a raising user function. -/
theorem wrapper_raise_propagates_witness :
    create_wrapper demoParse demoInput = .ok demoFlatRule ∧
    demoFnRaise (buildMaps demoFlatRule.terms demoProd).1 =
      .error (.userError "boom") ∧
    wrapper demoFlatRule demoFnRaise demoProd LocationMap.empty =
      (.error (.userError "boom"), demoProd,
        ⟨some demoProd, some (buildMaps demoFlatRule.terms demoProd).2⟩) :=
  ⟨rfl, rfl,
    wrapper_raise_propagates_and_context_dangles demoParse demoInput
      demoFlatRule demoFnRaise demoProd LocationMap.empty
      (.userError "boom") rfl rfl⟩

/-- C2 (refuting the claim as stated): during an active adapter invocation,
`location` with `binding_name` omitted (`None`) does not return the
position-0 location data — the membership check `term_name not in terms`
precedes the `term_name is None` branch, `None` is never among the string
keys, so the call always raises `KeyError`. -/
theorem location_none_always_keyerror {V : Type} (p : Production V)
    (terms : List (String × Nat)) (extraFn : Option (V → ExtraResult)) :
    location ⟨some p, some terms⟩ none extraFn =
      .error (.keyError "Provided None is not a named term") := by
  simp [location, optKeyInDict, showTermName]

/-- C3: the adapter passes to `fn` exactly one keyword argument per Named
Term — each binding name mapped to `p[i+1]` for the term's zero-based index
`i` (`kwargsSpec` is that wording) — and writes `fn`'s return value to
position 0 of `p`, returning `None` itself. -/
theorem wrapper_kwargs_and_result {V : Type}
    (parse : String → List Rule) (input : RulesetInput) (fr : FlatRule)
    (fn : List (String × V) → Except PyErr V) (p : Production V)
    (st : LocationMap V) (v : V)
    (hcw : create_wrapper parse input = .ok fr)
    (hnodup : (namedNames fr.terms).Nodup)
    (hok : fn (buildMaps fr.terms p).1 = .ok v) :
    (buildMaps fr.terms p).1 = kwargsSpec fr.terms p ∧
    ((buildMaps fr.terms p).1).length = (namedNames fr.terms).length ∧
    (wrapper fr fn p st).2.1.values 0 = v ∧
    (wrapper fr fn p st).1 = .ok none := by
  refine ⟨buildMaps_fst _ _ hnodup, ?_, ?_, ?_⟩
  · rw [buildMaps_fst _ _ hnodup]
    exact kwargsSpecGo_length p fr.terms 0
  · simp [wrapper, hok]
  · simp [wrapper, hok]

/-- Witness for C3: the `{A}` wrapper on a reduction whose position 1 holds
`"Hello"` calls `fn` with the single keyword argument `a = "Hello"` and
stores its result in `p[0]`. -/
theorem wrapper_kwargs_and_result_witness :
    create_wrapper demoParse demoInput = .ok demoFlatRule ∧
    (namedNames demoFlatRule.terms).Nodup ∧
    demoFnOk (buildMaps demoFlatRule.terms demoProd).1 = .ok "Hello" ∧
    ((buildMaps demoFlatRule.terms demoProd).1 =
        kwargsSpec demoFlatRule.terms demoProd ∧
      ((buildMaps demoFlatRule.terms demoProd).1).length =
        (namedNames demoFlatRule.terms).length ∧
      (wrapper demoFlatRule demoFnOk demoProd LocationMap.empty).2.1.values 0 =
        "Hello" ∧
      (wrapper demoFlatRule demoFnOk demoProd LocationMap.empty).1 =
        .ok none) :=
  ⟨rfl, by decide, rfl,
    wrapper_kwargs_and_result demoParse demoInput demoFlatRule demoFnOk
      demoProd LocationMap.empty "Hello" rfl (by decide) rfl⟩

/-- C4: for a rule with k Optional Groups, `Rule.expand_optionals` yields
all 2^k present/absent assignments, and the module-level `expand_optionals`
(format=False path) returns between 1 and 2^k flattened rules, covers every
assignment's flattened rule, and contains no two members with an identical
flattened term sequence. -/
theorem expand_optionals_bounds_and_dedup (parse : String → List Rule)
    (r : Rule) :
    (r.expand_optionals).length = 2 ^ r.countOptionalGroups ∧
    1 ≤ (expand_optionals parse (.single (.rule r))).length ∧
    (expand_optionals parse (.single (.rule r))).length ≤
      2 ^ r.countOptionalGroups ∧
    (∀ v ∈ r.expand_optionals,
      v.flatten ∈ expand_optionals parse (.single (.rule r))) ∧
    (expand_optionals parse (.single (.rule r))).Pairwise
      (fun a b => a.terms ≠ b.terms) := by
  have key : expand_optionals parse (.single (.rule r)) = process_rule r := by
    simp [expand_optionals, _coerce_to_ruleset, coerce_to_rule]
  rw [key]
  exact ⟨expand_optionals_rule_length r, process_rule_length_pos r,
    process_rule_length_le r, fun v hv => process_rule_mem r v hv,
    process_rule_pairwise r⟩

/-- C5 (the code at the claimed behavior's site is broken): with an active
context and a valid binding name, supplying any `extra_fn` makes `location`
raise `NameError` — source line 134 tests `instance(up, Mapping)` and
`instance` is an undefined global — so neither the merge nor the promised
`TypeError` is reachable. -/
theorem location_extra_fn_nameerror {V : Type} (p : Production V)
    (terms : List (String × Nat)) (n : String) (f : V → ExtraResult)
    (hmem : dictContains terms n = true) :
    location ⟨some p, some terms⟩ (some n) (some f) =
      .error (.nameError "instance") := by
  simp [location, optKeyInDict, hmem]

/-- Witness for C5: a well-behaved `extra_fn` returning a Mapping still gets
`NameError`. -/
theorem location_extra_fn_nameerror_witness :
    dictContains [("a", 1)] "a" = true ∧
    location ⟨some demoProd, some [("a", 1)]⟩ (some "a") (some demoExtraFn) =
      .error (.nameError "instance") :=
  ⟨by decide,
    location_extra_fn_nameerror demoProd [("a", 1)] "a" demoExtraFn (by decide)⟩

/-- C6 (refuting the claim as stated): a flattened rule with two Named Terms
sharing the binding name `x` is silently accepted by wrapper generation —
no diagnostic is raised; dict assignment makes the last occurrence win, so
`fn` is called with the single keyword argument `x = p[2]` and the adapter
completes normally. -/
theorem duplicate_binding_names_silently_accepted :
    buildMaps dupRule.terms dupProd = ([("x", 2)], [("x", 2)]) ∧
    (wrapper dupRule dupFn dupProd LocationMap.empty).1 = .ok none ∧
    (wrapper dupRule dupFn dupProd LocationMap.empty).2.1.values 0 = 2 := by
  refine ⟨by decide, rfl, rfl⟩

/-- C7 (refuting the claim as stated): a state in which no adapter is
executing, reached by one adapter invocation whose user function raised, still
has the Reduction Context published, so `location` succeeds with stale data
instead of raising the "not inside an adapter invocation" error. -/
theorem location_succeeds_after_raising_invocation :
    (wrapper demoFlatRule demoFnRaise demoProd
        LocationMap.empty).2.2.production.isSome = true ∧
    location (wrapper demoFlatRule demoFnRaise demoProd LocationMap.empty).2.2
        (some "a") none = .ok ⟨1, 0, (1, 1), (0, 0)⟩ := by
  exact ⟨rfl, rfl⟩

/-- C8: the single-rule coercion returns the rule unwrapped when the coerced
ruleset has exactly one member, and raises `SingleRuleExpectedError` when it
has zero or more than one. -/
theorem coerce_single_rule_spec (parse : String → List Rule)
    (input : RulesetInput) :
    (∀ r, _coerce_to_ruleset parse input = [r] →
        _coerce_to_single_rule parse input = .ok r) ∧
    ((_coerce_to_ruleset parse input).length ≠ 1 →
        _coerce_to_single_rule parse input = .error .singleRuleExpected) := by
  constructor
  · intro r h
    simp [_coerce_to_single_rule, h]
  · intro h
    rcases hrs : _coerce_to_ruleset parse input with _ | ⟨a, _ | ⟨b, rest⟩⟩
    · simp [_coerce_to_single_rule, hrs]
    · rw [hrs] at h
      simp at h
    · simp [_coerce_to_single_rule, hrs]

/-- Witness for C8: a one-rule input is unwrapped; an empty list input
raises `SingleRuleExpectedError`. -/
theorem coerce_single_rule_spec_witness :
    _coerce_to_single_rule demoParse demoInput = .ok demoRule ∧
    _coerce_to_single_rule demoParse (.list []) =
      .error .singleRuleExpected :=
  ⟨(coerce_single_rule_spec demoParse demoInput).1 demoRule rfl,
   (coerce_single_rule_spec demoParse (.list [])).2 (by decide)⟩

/-- C9: the ruleset coercion accepts heterogeneous lists — every string
element is parsed, every non-string element passes through unchanged, the
outputs are concatenated in input order (`rulesetSpec` is that wording), and
a non-list input is treated as the singleton list of itself. -/
theorem coerce_ruleset_heterogeneous (parse : String → List Rule) :
    (∀ xs, _coerce_to_ruleset parse (.list xs) = rulesetSpec parse xs) ∧
    (∀ x, _coerce_to_ruleset parse (.single x) = rulesetSpec parse [x]) := by
  have hlist : ∀ xs, _coerce_to_ruleset parse (.list xs) = rulesetSpec parse xs := by
    intro xs
    induction xs with
    | nil => rfl
    | cons x rest ih =>
      simp only [_coerce_to_ruleset] at ih ⊢
      cases x with
      | str s => simp [coerce_to_rule, rulesetSpec, ih]
      | rule r => simp [coerce_to_rule, rulesetSpec, ih]
  refine ⟨hlist, ?_⟩
  intro x
  cases x with
  | str s => simp [_coerce_to_ruleset, coerce_to_rule, rulesetSpec]
  | rule r => simp [_coerce_to_ruleset, coerce_to_rule, rulesetSpec]

/-- C10: a successful adapter invocation writes `fn`'s result to position 0
of `p`, leaves every other position and all location accessors of `p`
unchanged, and the adapter itself returns `None`. -/
theorem wrapper_success_frame {V : Type}
    (parse : String → List Rule) (input : RulesetInput) (fr : FlatRule)
    (fn : List (String × V) → Except PyErr V) (p : Production V)
    (st : LocationMap V) (v : V)
    (hcw : create_wrapper parse input = .ok fr)
    (hok : fn (buildMaps fr.terms p).1 = .ok v) :
    (wrapper fr fn p st).1 = .ok none ∧
    (wrapper fr fn p st).2.1.values 0 = v ∧
    (∀ j, j ≠ 0 → (wrapper fr fn p st).2.1.values j = p.values j) ∧
    (wrapper fr fn p st).2.1.lineno = p.lineno ∧
    (wrapper fr fn p st).2.1.lexpos = p.lexpos ∧
    (wrapper fr fn p st).2.1.linespan = p.linespan ∧
    (wrapper fr fn p st).2.1.lexspan = p.lexspan := by
  refine ⟨?_, ?_, ?_, ?_, ?_, ?_, ?_⟩
  · simp [wrapper, hok]
  · simp [wrapper, hok]
  · intro j hj
    simp [wrapper, hok, hj]
  · simp [wrapper, hok]
  · simp [wrapper, hok]
  · simp [wrapper, hok]
  · simp [wrapper, hok]

/-- Witness for C10: the `{A}` wrapper on the §8 example reduction returns
`None`, writes `"Hello"` to position 0, and leaves position 1 unchanged. -/
theorem wrapper_success_frame_witness :
    create_wrapper demoParse demoInput = .ok demoFlatRule ∧
    demoFnOk (buildMaps demoFlatRule.terms demoProd).1 = .ok "Hello" ∧
    ((wrapper demoFlatRule demoFnOk demoProd LocationMap.empty).1 = .ok none ∧
      (wrapper demoFlatRule demoFnOk demoProd
          LocationMap.empty).2.1.values 0 = "Hello" ∧
      (∀ j, j ≠ 0 →
        (wrapper demoFlatRule demoFnOk demoProd
            LocationMap.empty).2.1.values j = demoProd.values j) ∧
      (wrapper demoFlatRule demoFnOk demoProd
          LocationMap.empty).2.1.lineno = demoProd.lineno ∧
      (wrapper demoFlatRule demoFnOk demoProd
          LocationMap.empty).2.1.lexpos = demoProd.lexpos ∧
      (wrapper demoFlatRule demoFnOk demoProd
          LocationMap.empty).2.1.linespan = demoProd.linespan ∧
      (wrapper demoFlatRule demoFnOk demoProd
          LocationMap.empty).2.1.lexspan = demoProd.lexspan) :=
  ⟨rfl, rfl,
    wrapper_success_frame demoParse demoInput demoFlatRule demoFnOk demoProd
      LocationMap.empty "Hello" rfl rfl⟩

end EasyPly
